import Mathlib

set_option maxHeartbeats 1000000

/-!
Verification of the CatGPT conversation-relay pipeline (`src/index.js`):
per-user bounded conversation history, the inference request cycle with
timeout and error classification, response chunking, liveness signaling
and the clear command.  Every definition is a shallow embedding of the
corresponding JavaScript; the external world (the fetch result, the
outcome of each channel send) enters as explicit parameters.
-/

namespace CatGPT

/-- Role of a conversation turn (the `role` field of a context entry). -/
inductive Role
  | user
  | assistant
deriving DecidableEq, Repr

/-- One entry of a user's stored context: `{ role, content }`. -/
structure Turn where
  role : Role
  content : String
deriving DecidableEq, Repr

/-- The `userContexts` map: per-user stored conversation history.
`none` means the map has no entry for that user. -/
abbrev Store := Nat → Option (List Turn)

/-- `new Map()`. -/
def Store.empty : Store := fun _ => none

/-- `userContexts.set(u, l)`. -/
def Store.setCtx (s : Store) (u : Nat) (l : List Turn) : Store :=
  fun v => if v = u then some l else s v

/-- `userContexts.delete(u)`. -/
def Store.erase (s : Store) (u : Nat) : Store :=
  fun v => if v = u then none else s v

/-- `userContexts.get(u) || []`. -/
def Store.getCtx (s : Store) (u : Nat) : List Turn :=
  (s u).getD []

/-- The context built by `generateResponse` before the fetch: push the new
user turn, then `if (context.length > 10) context = context.slice(-10)`
(`slice(-10)` keeps the last 10 elements, i.e. drops `length - 10` from
the front). -/
def trimCtx (old : List Turn) (prompt : String) : List Turn :=
  let c := old ++ [⟨Role.user, prompt⟩]
  if c.length > 10 then c.drop (c.length - 10) else c

/-- Outcome of the `fetch` call to the inference endpoint, supplied by
the environment: an HTTP response with a status and a body content
(`data.message.content`), a fired `AbortSignal.timeout`, or a rejected
connection. -/
inductive FetchOutcome
  | response (status : Nat) (content : String)
  | timeout
  | connRefused
deriving DecidableEq, Repr

/-- The fields of a thrown JavaScript error that the handler's catch
block inspects: `error.name`, `error.message`, `error.cause?.code`. -/
structure ErrInfo where
  name : String
  message : String
  causeCode : Option String
deriving DecidableEq, Repr

/-- The error produced when `AbortSignal.timeout(120000)` fires. -/
def timeoutError : ErrInfo :=
  ⟨"TimeoutError", "The operation was aborted due to timeout", none⟩

/-- The error produced when the endpoint refuses the connection:
`fetch` rejects with a TypeError whose `cause.code` is `ECONNREFUSED`. -/
def connRefusedError : ErrInfo :=
  ⟨"TypeError", "fetch failed", some "ECONNREFUSED"⟩

/-- The error thrown by `generateResponse` on a non-ok response:
`new Error(\x7bOllama error: $\x7bresponse.status\x7d\x7d)`. -/
def endpointError (status : Nat) : ErrInfo :=
  ⟨"Error", "Ollama error: " ++ toString status, none⟩

/-- Result of `generateResponse`: the returned assistant text, or the
thrown error. -/
inductive GenResult
  | ok (text : String)
  | err (e : ErrInfo)
deriving DecidableEq, Repr

/-- The hard timeout passed to `AbortSignal.timeout`, in milliseconds. -/
def timeoutMs : Nat := 120000

/-- State of the store after `generateResponse` fails (throws): the local
`context` array aliases the stored one, so the `push` of the user turn is
visible in the store whenever an entry existed, while `slice(-10)` only
rebinds the local variable and `userContexts.set` is never reached.  With
no prior entry the fresh `[]` is local only and the store is untouched. -/
def failStore (store : Store) (u : Nat) (prompt : String) : Store :=
  match store u with
  | none => store
  | some l => store.setCtx u (l ++ [⟨Role.user, prompt⟩])

/-- `generateResponse(userId, prompt)` under a given fetch outcome:
read the context, push the user turn, trim to the last 10 if over 10,
fetch; on ok status push the assistant turn and store the context,
returning the text; otherwise throw, leaving the store in the aliased
failure state. -/
def generateResponse (store : Store) (u : Nat) (prompt : String)
    (outcome : FetchOutcome) : Store × GenResult :=
  let context := trimCtx (store.getCtx u) prompt
  match outcome with
  | .response status content =>
      if 200 ≤ status ∧ status < 300 then
        (store.setCtx u (context ++ [⟨Role.assistant, content⟩]), .ok content)
      else
        (failStore store u prompt, .err (endpointError status))
  | .timeout => (failStore store u prompt, .err timeoutError)
  | .connRefused => (failStore store u prompt, .err connRefusedError)

/-- Whether a fetch outcome makes `generateResponse` throw
(`response.ok` is status in [200, 300)). -/
def FetchOutcome.fails : FetchOutcome → Bool
  | .response status _ => !(decide (200 ≤ status ∧ status < 300))
  | .timeout => true
  | .connRefused => true

/-- Run a sequence of successful exchanges `(prompt, reply)` for one
user through `generateResponse`. -/
def runOk (u : Nat) : Store → List (String × String) → Store
  | store, [] => store
  | store, (p, r) :: rest => runOk u (generateResponse store u p (.response 200 r)).1 rest

/-- Run `k` failing `generateResponse` calls for one user with a fixed
prompt and failing fetch outcome. -/
def repeatFailedCalls (u : Nat) (msg : String) (oc : FetchOutcome) : Nat → Store → Store
  | 0, store => store
  | k + 1, store => repeatFailedCalls u msg oc k (generateResponse store u msg oc).1

/-- Greedy chunking of a long reply, the model of
`response.match(/.\x7b1,4000\x7dgs) || []`: repeatedly take up to 4000
units from the front.  Text is modelled as its sequence of units. -/
def splitChunks : List Char → List (List Char)
  | [] => []
  | c :: rest => (c :: rest).take 4000 :: splitChunks (rest.drop 3999)
termination_by s => s.length
decreasing_by simp; omega

/-- Response Delivery: `if (response.length > 4000)` send the chunks in
order, `else` send the text as a single message. -/
def deliver (s : List Char) : List (List Char) :=
  if s.length > 4000 then splitChunks s else [s]

/-- The error-message classification of the handler's catch block:
start from `error.message`, replace it when `error.cause?.code` is
`ECONNREFUSED`, then when `error.name` is `TimeoutError`. -/
def classifyMsg (e : ErrInfo) : String :=
  let m0 := e.message
  let m1 := if e.causeCode = some "ECONNREFUSED" then
    "Ollama service is not available. Please try again later." else m0
  if e.name = "TimeoutError" then
    "Response took too long. Please try a shorter message." else m1

/-- The user-facing apology reply built in the catch block. -/
def apology (errorMsg : String) : String :=
  "😿 Sorry, I encountered an error: " ++ errorMsg ++
    "\n\nPlease try again or use /clear to reset."

/-- The reply of the top-level `bot.catch` handler. -/
def genericApology : String := "😿 An unexpected error occurred. Please try again."

/-- The confirmation reply of the `/clear` command. -/
def clearConfirmation : String := "🧹 Conversation history cleared!"

/-- Observable actions of the text handler, in order: a typing signal
(sent or failed), arming/disarming the 5-second interval, the inference
call, and each `ctx.reply` (sent or failed). -/
inductive Event
  | typing
  | typingFail
  | arm
  | disarm
  | inferCall
  | send (text : String)
  | sendFail (text : String)
deriving DecidableEq, Repr

/-- Whether an event is a successful outbound message. -/
def Event.isSend : Event → Bool
  | .send _ => true
  | _ => false

/-- Whether an event disarms the typing interval (`clearInterval`). -/
def Event.isDisarm : Event → Bool
  | .disarm => true
  | _ => false

/-- Whether an event arms the typing interval (`setInterval`). -/
def Event.isArm : Event → Bool
  | .arm => true
  | _ => false

/-- Whether an event is the inference call. -/
def Event.isInferCall : Event → Bool
  | .inferCall => true
  | _ => false

/-- Whether an event is a periodic or initial typing signal attempt. -/
def Event.isTyping : Event → Bool
  | .typing => true
  | .typingFail => true
  | _ => false

/-- The typing signals emitted by the 5-second interval while the fetch
is outstanding; each tick's send either succeeds or fails, and a failed
tick is swallowed by `.catch(() => \x7b \x7d)`. -/
def tickEvents (ticks : List Bool) : List Event :=
  ticks.map fun ok => if ok then Event.typing else Event.typingFail

/-- Events of the try/catch/finally block, given the result of
`generateResponse`: on success the chunked replies then `clearInterval`;
if the first reply of the try block rejects with error `e`, the catch
block replies the classified apology (or fails to) and `finally` still
disarms, a failed apology falling through to `bot.catch`; on a thrown
inference error, the same catch/finally path. -/
def handleTail : GenResult → Option ErrInfo → Bool → List Event
  | GenResult.ok text, none, _ =>
      (deliver text.data).map (fun c => Event.send (String.mk c)) ++ [Event.disarm]
  | GenResult.ok text, some e, apologyFails =>
      Event.sendFail (String.mk ((deliver text.data).headD [])) ::
        (if apologyFails then
          [Event.sendFail (apology (classifyMsg e)), Event.disarm,
            Event.send genericApology]
        else
          [Event.send (apology (classifyMsg e)), Event.disarm])
  | GenResult.err e, _, apologyFails =>
      if apologyFails then
        [Event.sendFail (apology (classifyMsg e)), Event.disarm,
          Event.send genericApology]
      else
        [Event.send (apology (classifyMsg e)), Event.disarm]

/-- The `bot.on('text')` handler.  Environment parameters: whether the
initial `await ctx.sendChatAction('typing')` rejects (it is outside the
try block, so a rejection aborts the handler before the interval is
armed and `bot.catch` replies with the generic apology); the success of
each interval tick; the fetch outcome; whether the first `ctx.reply` of
the try block rejects (and with which error); and whether the apology
`ctx.reply` of the catch block rejects (then `finally` still disarms and
`bot.catch` replies).  Returns the final store and the event trace. -/
def handleText (store : Store) (u : Nat) (msg : String) (initialTypingFails : Bool)
    (ticks : List Bool) (outcome : FetchOutcome) (deliveryErr : Option ErrInfo)
    (apologyFails : Bool) : Store × List Event :=
  if initialTypingFails then
    (store, [Event.typingFail, Event.send genericApology])
  else
    let res := generateResponse store u msg outcome
    (res.1, Event.typing :: Event.arm ::
      (tickEvents ticks ++ Event.inferCall :: handleTail res.2 deliveryErr apologyFails))

/-- The `bot.command('clear')` handler: delete the user's entry and
reply with the confirmation; inference is never invoked. -/
def clearCommand (store : Store) (u : Nat) : Store × List Event :=
  (store.erase u, [Event.send clearConfirmation])

theorem suffix_append_same {α : Type} {l₁ l₂ : List α} (h : l₁ <:+ l₂) (t : List α) :
    l₁ ++ t <:+ l₂ ++ t := by
  obtain ⟨w, hw⟩ := h
  exact ⟨w, by rw [← hw, List.append_assoc]⟩

theorem trimCtx_length (old : List Turn) (p : String) :
    (trimCtx old p).length = min (old.length + 1) 10 := by
  unfold trimCtx
  by_cases h : (old ++ [Turn.mk Role.user p]).length > 10
  · rw [if_pos h]
    simp only [List.length_drop, List.length_append, List.length_singleton] at h ⊢
    omega
  · rw [if_neg h]
    simp only [List.length_append, List.length_singleton] at h ⊢
    omega

theorem trimCtx_suffix (old : List Turn) (p : String) :
    trimCtx old p <:+ old ++ [Turn.mk Role.user p] := by
  unfold trimCtx
  by_cases h : (old ++ [Turn.mk Role.user p]).length > 10
  · rw [if_pos h]; exact List.drop_suffix _ _
  · rw [if_neg h]

theorem trimCtx_ends_user (old : List Turn) (p : String) :
    ∃ pre, trimCtx old p = pre ++ [Turn.mk Role.user p] := by
  unfold trimCtx
  by_cases h : (old ++ [Turn.mk Role.user p]).length > 10
  · rw [if_pos h]
    refine ⟨old.drop ((old ++ [Turn.mk Role.user p]).length - 10), ?_⟩
    rw [List.drop_append_of_le_length]
    simp only [List.length_append, List.length_singleton] at h ⊢
    omega
  · rw [if_neg h]
    exact ⟨old, rfl⟩

theorem generateResponse_ok_fst (store : Store) (u : Nat) (p c : String) :
    (generateResponse store u p (.response 200 c)).1 u
      = some (trimCtx (store.getCtx u) p ++ [Turn.mk Role.assistant c]) := by
  simp [generateResponse, Store.setCtx]

theorem generateResponse_ok_snd (store : Store) (u : Nat) (p c : String) :
    (generateResponse store u p (.response 200 c)).2 = .ok c := by
  simp [generateResponse]

theorem generateResponse_fails_fst (store : Store) (u : Nat) (msg : String)
    (oc : FetchOutcome) (h : oc.fails = true) :
    (generateResponse store u msg oc).1 = failStore store u msg := by
  rcases oc with ⟨status, content⟩ | _ | _
  · simp only [FetchOutcome.fails, Bool.not_eq_true', decide_eq_false_iff_not] at h
    simp [generateResponse, h]
  · rfl
  · rfl

theorem failStore_of_none (store : Store) (u : Nat) (msg : String) (h : store u = none) :
    failStore store u msg = store := by
  unfold failStore
  rw [h]

theorem failStore_of_some (store : Store) (u : Nat) (msg : String) (l : List Turn)
    (h : store u = some l) :
    failStore store u msg u = some (l ++ [Turn.mk Role.user msg]) := by
  unfold failStore
  rw [h]
  simp [Store.setCtx]

theorem tickEvents_filter_eq_nil (p : Event → Bool) (hp : p Event.typing = false)
    (hq : p Event.typingFail = false) (ticks : List Bool) :
    (tickEvents ticks).filter p = [] := by
  induction ticks with
  | nil => rfl
  | cons b bs ih =>
      cases b
      · simpa [tickEvents, List.filter_cons, hq] using ih
      · simpa [tickEvents, List.filter_cons, hp] using ih

theorem filter_map_send (p : Event → Bool) (hp : ∀ t, p (Event.send t) = false)
    (l : List (List Char)) :
    (l.map fun c => Event.send (String.mk c)).filter p = [] := by
  induction l with
  | nil => rfl
  | cons x xs ih => simp [List.filter_cons, hp, ih]

theorem handleTail_filter_isDisarm (res : GenResult) (dErr : Option ErrInfo)
    (aFail : Bool) :
    (handleTail res dErr aFail).filter Event.isDisarm = [Event.disarm] := by
  rcases res with text | e
  · rcases dErr with _ | e
    · simp [handleTail, List.filter_append, List.filter_cons, Event.isDisarm,
        filter_map_send Event.isDisarm (fun _ => rfl)]
    · cases aFail <;>
        simp [handleTail, List.filter_cons, Event.isDisarm]
  · cases aFail <;>
      simp [handleTail, List.filter_cons, Event.isDisarm]

theorem handleTail_filter_isArm (res : GenResult) (dErr : Option ErrInfo)
    (aFail : Bool) :
    (handleTail res dErr aFail).filter Event.isArm = [] := by
  rcases res with text | e
  · rcases dErr with _ | e
    · simp [handleTail, List.filter_append, List.filter_cons, Event.isArm,
        filter_map_send Event.isArm (fun _ => rfl)]
    · cases aFail <;>
        simp [handleTail, List.filter_cons, Event.isArm]
  · cases aFail <;>
      simp [handleTail, List.filter_cons, Event.isArm]

theorem splitChunks_flatten (s : List Char) : (splitChunks s).flatten = s := by
  induction s using splitChunks.induct with
  | case1 => simp [splitChunks]
  | case2 c rest ih =>
      rw [splitChunks]
      simp only [List.flatten_cons]
      rw [List.take_cons (by decide)]
      simp only [List.cons_append, List.cons.injEq, true_and]
      have h4 : (4000 : Nat) - 1 = 3999 := by decide
      rw [h4, ih, List.take_append_drop]

theorem splitChunks_chunk_le (s : List Char) :
    ∀ c ∈ splitChunks s, c.length ≤ 4000 := by
  induction s using splitChunks.induct with
  | case1 => simp [splitChunks]
  | case2 c rest ih =>
      rw [splitChunks]
      intro x hx
      rcases List.mem_cons.mp hx with h | h
      · subst h; simp [List.length_take]
      · exact ih x h

theorem splitChunks_cons (c : Char) (rest : List Char) :
    splitChunks (c :: rest) = (c :: rest).take 4000 :: splitChunks (rest.drop 3999) := by
  rw [splitChunks]

theorem splitChunks_map_length_9000 (s : List Char) (h : s.length = 9000) :
    (splitChunks s).map List.length = [4000, 4000, 1000] := by
  obtain ⟨c1, r1, rfl⟩ := List.exists_cons_of_ne_nil
    (List.ne_nil_of_length_pos (show 0 < s.length by omega))
  have h1 : r1.length = 8999 := by simpa using h
  have h2 : (r1.drop 3999).length = 5000 := by simp [h1]
  obtain ⟨c2, r2, he2⟩ := List.exists_cons_of_ne_nil
    (List.ne_nil_of_length_pos (show 0 < (r1.drop 3999).length by omega))
  have h3 : r2.length = 4999 := by rw [he2] at h2; simpa using h2
  have h4 : (r2.drop 3999).length = 1000 := by simp [h3]
  obtain ⟨c3, r3, he3⟩ := List.exists_cons_of_ne_nil
    (List.ne_nil_of_length_pos (show 0 < (r2.drop 3999).length by omega))
  have h5 : r3.length = 999 := by rw [he3] at h4; simpa using h4
  have h6 : r3.drop 3999 = [] := List.drop_eq_nil_of_le (by omega)
  rw [splitChunks_cons, he2, splitChunks_cons, he3, splitChunks_cons, h6]
  rw [show splitChunks [] = [] by simp [splitChunks]]
  simp [List.length_take, h1, h3, h5]

/-- C2: Response Delivery's chunking is a lossless order-preserving
partition: the concatenation of the ordered chunks reproduces the
original text exactly, no chunk exceeds the 4000-unit threshold, a text
at or below the threshold is sent as exactly one message, and a
9000-unit reply yields exactly 3 chunks of sizes 4000, 4000, 1000 in
order. -/
theorem chunking_correct (s : List Char) :
    (deliver s).flatten = s ∧
    (∀ c ∈ deliver s, c.length ≤ 4000) ∧
    (s.length ≤ 4000 → deliver s = [s]) ∧
    (s.length = 9000 →
      (deliver s).map List.length = [4000, 4000, 1000] ∧ (deliver s).length = 3) := by
  refine ⟨?_, ?_, ?_, ?_⟩
  · unfold deliver
    by_cases h : s.length > 4000
    · rw [if_pos h, splitChunks_flatten]
    · rw [if_neg h]; simp
  · intro c hc
    unfold deliver at hc
    by_cases h : s.length > 4000
    · rw [if_pos h] at hc; exact splitChunks_chunk_le s c hc
    · rw [if_neg h] at hc
      simp only [List.mem_singleton] at hc
      subst hc; omega
  · intro h
    unfold deliver
    rw [if_neg (by omega)]
  · intro h
    have hd : deliver s = splitChunks s := by
      unfold deliver; rw [if_pos (by omega)]
    have hm := splitChunks_map_length_9000 s h
    refine ⟨by rw [hd]; exact hm, ?_⟩
    have := congrArg List.length hm
    simpa [hd] using this

/-- Witness for C2: a 9000-unit text yields chunks of sizes 4000, 4000,
1000, and a 4-unit text is sent as a single message. -/
theorem chunking_correct_witness :
    (deliver (List.replicate 9000 'a')).map List.length = [4000, 4000, 1000] ∧
    deliver (List.replicate 4 'a') = [List.replicate 4 'a'] :=
  ⟨((chunking_correct (List.replicate 9000 'a')).2.2.2 (by rw [List.length_replicate])).1,
   (chunking_correct (List.replicate 4 'a')).2.2.1 (by rw [List.length_replicate]; omega)⟩

theorem string_mk_data (s : String) : String.mk s.data = s := rfl

/-- C1 counterexample: six successful exchanges leave an 11-turn stored
history, refuting that the retrieved history has length exactly 10 once
more than 10 turns have been appended: the `slice(-10)` trim runs before
the assistant turn is pushed, so a successful call stores up to 11
turns. -/
theorem history_cap_counterexample :
    ((runOk 1 Store.empty
        [("m1", "r1"), ("m2", "r2"), ("m3", "r3"),
         ("m4", "r4"), ("m5", "r5"), ("m6", "r6")] 1).getD []).length = 11 := by
  decide

/-- C1 (amended): on every successful `generateResponse` call the stored
history becomes the trimmed context (at most 10 turns, what is sent to
inference) plus the assistant turn: its length is `min (old + 1) 10 + 1`
— hence at most 11, not 10 — and it is a suffix of the old history
followed by the new user and assistant turns, so the retained turns are
the most recent ones in original insertion order, oldest dropped
first. -/
theorem history_window_eleven (store : Store) (u : Nat) (p c : String) :
    (((generateResponse store u p (.response 200 c)).1 u).getD []).length
      = min ((store.getCtx u).length + 1) 10 + 1 ∧
    (((generateResponse store u p (.response 200 c)).1 u).getD []).length ≤ 11 ∧
    (trimCtx (store.getCtx u) p).length ≤ 10 ∧
    ((generateResponse store u p (.response 200 c)).1 u).getD []
      <:+ store.getCtx u ++ [Turn.mk Role.user p, Turn.mk Role.assistant c] := by
  have hfst := generateResponse_ok_fst store u p c
  rw [hfst]
  simp only [Option.getD_some]
  have hlen := trimCtx_length (store.getCtx u) p
  refine ⟨?_, ?_, ?_, ?_⟩
  · simp [hlen]
  · simp only [List.length_append, List.length_singleton, hlen]
    omega
  · omega
  · have hs := suffix_append_same (trimCtx_suffix (store.getCtx u) p)
      [Turn.mk Role.assistant c]
    simpa [List.append_assoc] using hs

/-- C3: for every inbound text message whose handling completes or fails
(success, inference error of any kind, timeout, or delivery error, with
or without a failing apology reply), the typing interval is armed
exactly once and `clearInterval` runs exactly once: the liveness
signaler is never left running after the handler finishes. -/
theorem signaler_disarmed_once (store : Store) (u : Nat) (msg : String)
    (ticks : List Bool) (outcome : FetchOutcome) (deliveryErr : Option ErrInfo)
    (apologyFails : Bool) :
    ((handleText store u msg false ticks outcome deliveryErr apologyFails).2.filter
        Event.isDisarm).length = 1 ∧
    ((handleText store u msg false ticks outcome deliveryErr apologyFails).2.filter
        Event.isArm).length = 1 := by
  constructor
  · simp [handleText, List.filter_cons, List.filter_append, Event.isDisarm, Event.isArm,
      Event.isInferCall, tickEvents_filter_eq_nil, handleTail_filter_isDisarm]
  · simp [handleText, List.filter_cons, List.filter_append, Event.isDisarm, Event.isArm,
      Event.isInferCall, tickEvents_filter_eq_nil, handleTail_filter_isArm]

/-- C9: the clear command is idempotent and bypasses inference: after one
clear the user's entry is gone, clearing again produces no error and an
empty history both times, the second clear changes nothing, and the only
event is the confirmation reply — inference is never invoked. -/
theorem clear_idempotent (store : Store) (u : Nat) :
    (clearCommand store u).1 u = none ∧
    (clearCommand (clearCommand store u).1 u).1 u = none ∧
    (clearCommand (clearCommand store u).1 u).1 = (clearCommand store u).1 ∧
    (clearCommand store u).2 = [Event.send clearConfirmation] ∧
    (clearCommand store u).2.filter Event.isInferCall = [] := by
  refine ⟨?_, ?_, ?_, rfl, rfl⟩
  · simp [clearCommand, Store.erase]
  · simp [clearCommand, Store.erase]
  · funext v
    by_cases h : v = u <;> simp [clearCommand, Store.erase, h]

/-- C4: on a successful exchange the pipeline is end-to-end correct: the
stored history for the user ends with the user turn carrying the sent
text followed by an assistant turn carrying the reply text, and for a
reply at or below the 4000-unit threshold exactly one outbound message,
carrying exactly the reply text, is sent. -/
theorem success_pipeline (store : Store) (u : Nat) (msg text : String)
    (ticks : List Bool) (h : text.length ≤ 4000) :
    (∃ pre, (handleText store u msg false ticks (.response 200 text) none false).1 u
        = some (pre ++ [Turn.mk Role.user msg, Turn.mk Role.assistant text])) ∧
    (handleText store u msg false ticks (.response 200 text) none false).2.filter
        Event.isSend = [Event.send text] := by
  constructor
  · obtain ⟨pre, hpre⟩ := trimCtx_ends_user (store.getCtx u) msg
    refine ⟨pre, ?_⟩
    have hfst : (handleText store u msg false ticks (.response 200 text) none false).1
        = (generateResponse store u msg (.response 200 text)).1 := rfl
    rw [hfst, generateResponse_ok_fst, hpre, List.append_assoc]
    rfl
  · have hdel : deliver text.data = [text.data] := by
      unfold deliver
      rw [if_neg]
      have hlc : text.data.length = text.length := rfl
      omega
    simp [handleText, handleTail, hdel, generateResponse_ok_snd, List.filter_cons,
      List.filter_append, Event.isSend, Event.isInferCall, tickEvents_filter_eq_nil,
      string_mk_data]

/-- Witness for C4 at the spec's concrete scenario: user 1 sends "hello",
inference replies "hi there", the stored history ends with those two
turns and exactly the one message "hi there" goes out. -/
theorem success_pipeline_witness :
    "hi there".length ≤ 4000 ∧
    ((∃ pre,
      (handleText Store.empty 1 "hello" false [] (.response 200 "hi there") none false).1 1
        = some (pre ++ [Turn.mk Role.user "hello", Turn.mk Role.assistant "hi there"])) ∧
    (handleText Store.empty 1 "hello" false [] (.response 200 "hi there") none false).2.filter
        Event.isSend = [Event.send "hi there"]) :=
  ⟨by decide, success_pipeline Store.empty 1 "hello" "hi there" [] (by decide)⟩

/-- C5: an inference call that does not respond within the hard timeout
(`AbortSignal.timeout(120000)`, 120 seconds) fails with the TimeoutError
and on every such handling the user receives a reply containing a "took
too long" message: no crash, no hang, the handler finishes its trace. -/
theorem timeout_handled (store : Store) (u : Nat) (msg : String) (ticks : List Bool)
    (deliveryErr : Option ErrInfo) :
    timeoutMs = 120000 ∧
    (generateResponse store u msg .timeout).2 = .err timeoutError ∧
    timeoutError.name = "TimeoutError" ∧
    Event.send (apology "Response took too long. Please try a shorter message.")
      ∈ (handleText store u msg false ticks .timeout deliveryErr false).2 ∧
    (∃ pre post, apology "Response took too long. Please try a shorter message."
      = pre ++ "took too long" ++ post) := by
  refine ⟨rfl, rfl, rfl, ?_, ?_⟩
  · have hc : classifyMsg timeoutError
        = "Response took too long. Please try a shorter message." := rfl
    simp [handleText, generateResponse, handleTail, hc, List.mem_append]
  · exact ⟨"😿 Sorry, I encountered an error: Response ",
      ". Please try a shorter message.\n\nPlease try again or use /clear to reset.",
      by decide⟩

/-- C6: a connection-refused fetch (endpoint unreachable) fails with the
error whose `cause.code` is ECONNREFUSED, which the handler classifies
into the unavailable message, and on every such failure the user
receives a reply mentioning the service being not available. -/
theorem unavailable_handled (store : Store) (u : Nat) (msg : String) (ticks : List Bool)
    (deliveryErr : Option ErrInfo) :
    (generateResponse store u msg .connRefused).2 = .err connRefusedError ∧
    connRefusedError.causeCode = some "ECONNREFUSED" ∧
    classifyMsg connRefusedError
      = "Ollama service is not available. Please try again later." ∧
    Event.send (apology "Ollama service is not available. Please try again later.")
      ∈ (handleText store u msg false ticks .connRefused deliveryErr false).2 ∧
    (∃ pre post, apology "Ollama service is not available. Please try again later."
      = pre ++ "service is not available" ++ post) := by
  refine ⟨rfl, rfl, rfl, ?_, ?_⟩
  · have hc : classifyMsg connRefusedError
        = "Ollama service is not available. Please try again later." := rfl
    simp [handleText, generateResponse, handleTail, hc, List.mem_append]
  · exact ⟨"😿 Sorry, I encountered an error: Ollama ",
      ". Please try again later.\n\nPlease try again or use /clear to reset.",
      by decide⟩

/-- C7: for every response with a non-2xx status code the call fails
with the endpoint error carrying the raw status code, the status code is
surfaced verbatim in the user-facing error reply, no assistant text is
returned, and the stored history gains no assistant turn. -/
theorem endpoint_error_handled (status : Nat) (hs : ¬(200 ≤ status ∧ status < 300))
    (store : Store) (u : Nat) (msg content : String) (ticks : List Bool) :
    (generateResponse store u msg (.response status content)).2
        = .err (endpointError status) ∧
    (endpointError status).message = "Ollama error: " ++ toString status ∧
    (∃ pre post, apology (classifyMsg (endpointError status))
        = pre ++ toString status ++ post) ∧
    Event.send (apology (classifyMsg (endpointError status)))
      ∈ (handleText store u msg false ticks (.response status content) none false).2 ∧
    (((generateResponse store u msg (.response status content)).1 u).getD []).filter
        (fun t => decide (t.role = Role.assistant))
      = ((store u).getD []).filter (fun t => decide (t.role = Role.assistant)) := by
  refine ⟨?_, rfl, ?_, ?_, ?_⟩
  · simp [generateResponse, hs]
  · refine ⟨"😿 Sorry, I encountered an error: Ollama error: ",
      "\n\nPlease try again or use /clear to reset.", ?_⟩
    have hc : classifyMsg (endpointError status)
        = "Ollama error: " ++ toString status := rfl
    rw [hc]
    show "😿 Sorry, I encountered an error: " ++ ("Ollama error: " ++ toString status)
        ++ "\n\nPlease try again or use /clear to reset." = _
    rw [← String.append_assoc]
    congr 1
  · simp [handleText, generateResponse, hs, handleTail, List.mem_append]
  · have hfail : (generateResponse store u msg (.response status content)).1
        = failStore store u msg :=
      generateResponse_fails_fst store u msg _ (by simp [FetchOutcome.fails, hs])
    rw [hfail]
    rcases hsu : store u with _ | l
    · rw [failStore_of_none store u msg hsu, hsu]
    · have h2 := failStore_of_some store u msg l hsu
      simp [h2, hsu, List.filter_append, List.filter_cons]

/-- Witness for C7 at status 500. -/
theorem endpoint_error_handled_witness :
    ¬(200 ≤ 500 ∧ 500 < 300) ∧
    (generateResponse Store.empty 1 "hi" (.response 500 "x")).2
      = .err (endpointError 500) :=
  ⟨by omega, (endpoint_error_handled 500 (by omega) Store.empty 1 "hi" "x" []).1⟩

/-- C8 counterexample: the initial `await ctx.sendChatAction('typing')`
is outside the try block, so when it rejects the handling is aborted —
the inference call never happens and the reply is never delivered — even
though inference would have succeeded with "meow".  This refutes the
claim that every typing-signal failure, the initial one included, is
swallowed without altering the handling. -/
theorem initial_typing_not_swallowed :
    (handleText Store.empty 1 "hi" true [] (.response 200 "meow") none false).2.filter
        Event.isInferCall = [] ∧
    Event.send "meow" ∉
      (handleText Store.empty 1 "hi" true [] (.response 200 "meow") none false).2 := by
  constructor
  · rfl
  · decide

/-- C8 (amended): every failure of a periodic 5-second typing signal is
swallowed and does not abort or alter the handling — the final store and
the full non-typing event trace (inference call, replies, disarming) are
independent of which ticks fail — but a failure of the immediate initial
signal aborts the handler before inference is invoked. -/
theorem periodic_typing_swallowed (store : Store) (u : Nat) (msg : String)
    (ticks : List Bool) (outcome : FetchOutcome) (deliveryErr : Option ErrInfo)
    (apologyFails : Bool) :
    (handleText store u msg false ticks outcome deliveryErr apologyFails).1
      = (handleText store u msg false [] outcome deliveryErr apologyFails).1 ∧
    (handleText store u msg false ticks outcome deliveryErr apologyFails).2.filter
        (fun e => !e.isTyping)
      = (handleText store u msg false [] outcome deliveryErr apologyFails).2.filter
        (fun e => !e.isTyping) ∧
    (handleText store u msg true ticks outcome deliveryErr apologyFails).2.filter
        Event.isInferCall = [] := by
  refine ⟨rfl, ?_, rfl⟩
  simp [handleText, List.filter_cons, List.filter_append, Event.isTyping,
    tickEvents_filter_eq_nil]

/-- C10: the failure path mutates stored history asymmetrically.  With no
prior entry the store stays without an entry for the user; with a prior
entry the new user turn is pushed in place into the stored sequence with
no trimming, so `k` repeated failed calls grow the stored history by `k`
turns, beyond the 10-turn cap without bound. -/
theorem failure_store_asymmetry (oc : FetchOutcome) (h : oc.fails = true) :
    ∀ (store : Store) (u : Nat) (msg : String),
      (store u = none → (generateResponse store u msg oc).1 u = none) ∧
      (∀ l, store u = some l →
        (generateResponse store u msg oc).1 u = some (l ++ [Turn.mk Role.user msg])) ∧
      (∀ l k, store u = some l →
        repeatFailedCalls u msg oc k store u
          = some (l ++ List.replicate k (Turn.mk Role.user msg))) ∧
      (∀ l k, store u = some l →
        ((repeatFailedCalls u msg oc k store u).getD []).length = l.length + k) := by
  have step : ∀ (store : Store) (u : Nat) (msg : String) (l : List Turn),
      store u = some l →
      (generateResponse store u msg oc).1 u = some (l ++ [Turn.mk Role.user msg]) := by
    intro store u msg l hl
    rw [generateResponse_fails_fst store u msg oc h]
    exact failStore_of_some store u msg l hl
  have grow : ∀ (u : Nat) (msg : String) (k : Nat) (store : Store) (l : List Turn),
      store u = some l →
      repeatFailedCalls u msg oc k store u
        = some (l ++ List.replicate k (Turn.mk Role.user msg)) := by
    intro u msg k
    induction k with
    | zero => intro store l hl; simpa [repeatFailedCalls] using hl
    | succ k ih =>
        intro store l hl
        have h1 := step store u msg l hl
        have h2 := ih (generateResponse store u msg oc).1
          (l ++ [Turn.mk Role.user msg]) h1
        rw [repeatFailedCalls, h2, List.append_assoc]
        simp [List.replicate_succ]
  intro store u msg
  refine ⟨?_, fun l hl => step store u msg l hl, fun l k hl => grow u msg k store l hl, ?_⟩
  · intro hn
    rw [generateResponse_fails_fst store u msg oc h, failStore_of_none store u msg hn]
    exact hn
  · intro l k hl
    rw [grow u msg k store l hl]
    simp

/-- Witness for C10: for a timed-out call, a user with a one-turn stored
history ends with that turn plus the new user turn pushed in place, and
three repeated failures grow the history to four turns. -/
theorem failure_store_asymmetry_witness :
    FetchOutcome.timeout.fails = true ∧
    (generateResponse (Store.empty.setCtx 1 [Turn.mk Role.user "a"]) 1 "b" .timeout).1 1
      = some [Turn.mk Role.user "a", Turn.mk Role.user "b"] ∧
    ((repeatFailedCalls 1 "b" .timeout 3 (Store.empty.setCtx 1 [Turn.mk Role.user "a"]) 1).getD
        []).length = 4 := by
  refine ⟨rfl, ?_, ?_⟩
  · have := (failure_store_asymmetry .timeout rfl
      (Store.empty.setCtx 1 [Turn.mk Role.user "a"]) 1 "b").2.1
      [Turn.mk Role.user "a"] (by simp [Store.setCtx, Store.empty])
    simpa using this
  · have := (failure_store_asymmetry .timeout rfl
      (Store.empty.setCtx 1 [Turn.mk Role.user "a"]) 1 "b").2.2.2
      [Turn.mk Role.user "a"] 3 (by simp [Store.setCtx, Store.empty])
    simpa using this

end CatGPT
